import Mathlib

/-!
Shallow embedding of the tideloom workflow kernel (src/src): the node graph,
per-node/workflow state, effect executors and registry, and the Processor's
tick state machine, translated from the Rust source.  Machine integers:
`NodeId` is a `u32` arena index modelled as `Nat`; `child_index` is an `i32`
modelled as `Int` (runs keep it between 0 and a node's child count, far below
2^31, so the non-wrapping model coincides with the source); the Rust cast
`child_index as usize` is modelled by `intAsUsize`, which reproduces the
sign-extending bit-pattern conversion.  `serde_json::Value` is modelled by the
inductive `Json` (only the fragment the kernel produces: null, strings,
objects).  Timestamps (`OffsetDateTime`) are opaque to the kernel and modelled
as `Nat`; the ambient `now_utc()` call is an explicit parameter.  The five
lifecycle callbacks are side channels with no effect on control flow; their
invocations are recorded in an event log on the processor.
-/

/-- Fragment of `serde_json::Value` used by the kernel. -/
inductive Json where
  | null : Json
  | str (s : String) : Json
  | obj (fields : List (String × Json)) : Json

/-- `NodePosition` (src/src/nodes/position.rs): ordered path segments. -/
structure NodePosition where
  path : List String
  deriving DecidableEq, Repr

/-- Embeds Rust `str::contains('/')`, phrased over the character list. -/
def strContainsSlash (s : String) : Bool :=
  s.data.contains '/'

def NodePosition.root : NodePosition := ⟨[]⟩

/-- `add_name` asserts the segment has no path separator (panic modelled as
`none`). -/
def NodePosition.add_name (p : NodePosition) (name : String) : Option NodePosition :=
  if strContainsSlash name then none else some ⟨p.path ++ [name]⟩

def NodePosition.add_token (p : NodePosition) (token : String) : NodePosition :=
  ⟨p.path ++ [token]⟩

/-- `add_index` pushes `index.to_string()` (decimal digits). -/
def NodePosition.add_index (p : NodePosition) (index : Nat) : NodePosition :=
  ⟨p.path ++ [Nat.repr index]⟩

def NodePosition.parent (p : NodePosition) : Option NodePosition :=
  if p.path.isEmpty then none else some ⟨p.path.dropLast⟩

def NodePosition.as_pointer (p : NodePosition) : String :=
  if p.path.isEmpty then "" else "/" ++ String.intercalate "/" p.path

/-- `FlowKind` (src/src/nodes/kind.rs). -/
inductive FlowKind where
  | Root | Do | For | Try | Fork | Raise | Set | Switch
  deriving DecidableEq, Repr

/-- `EffectKind` (src/src/nodes/kind.rs). -/
inductive EffectKind where
  | CallHttp | Run | Wait | Emit | Listen | CallGrpc | CallAsyncApi | CallOpenApi
  deriving DecidableEq, Repr

/-- `NodeKind` (src/src/nodes/kind.rs). -/
inductive NodeKind where
  | Flow (k : FlowKind)
  | Effect (k : EffectKind)
  deriving DecidableEq, Repr

def NodeKind.is_effect : NodeKind → Bool
  | .Effect _ => true
  | _ => false

/-- The derived Debug rendering of `EffectKind`, as used in the registry's
"no executor for" message. -/
def EffectKind.debugRepr : EffectKind → String
  | .CallHttp => "CallHttp"
  | .Run => "Run"
  | .Wait => "Wait"
  | .Emit => "Emit"
  | .Listen => "Listen"
  | .CallGrpc => "CallGrpc"
  | .CallAsyncApi => "CallAsyncApi"
  | .CallOpenApi => "CallOpenApi"

/-- `WorkflowError` (src/src/errors.rs). -/
inductive WorkflowError where
  | Task (message : String)
  | Unexpected (m : String)

/-- The thiserror-derived Display rendering of `WorkflowError`. -/
def WorkflowError.display : WorkflowError → String
  | .Task message => "task error: " ++ message
  | .Unexpected m => "unexpected: " ++ m

/-- `NodeGraph` (src/src/nodes/graph.rs): parallel arrays indexed by the
`u32` arena id (modelled as `Nat`). -/
structure NodeGraph where
  kinds : List NodeKind
  names : List String
  positions : List NodePosition
  children : List (List Nat)
  parents : List (Option Nat)
  root : Nat

def NodeGraph.new_root (name : String) : NodeGraph :=
  { kinds := [NodeKind.Flow FlowKind.Root]
    names := [name]
    positions := [NodePosition.root]
    children := [[]]
    parents := [none]
    root := 0 }

/-- `add_node` appends a node and returns its id (the Rust method mutates in
place and returns the id; here the updated graph is returned alongside). -/
def NodeGraph.add_node (g : NodeGraph) (kind : NodeKind) (name : String)
    (position : NodePosition) : NodeGraph × Nat :=
  let id := g.kinds.length
  ({ g with
      kinds := g.kinds ++ [kind]
      names := g.names ++ [name]
      positions := g.positions ++ [position]
      children := g.children ++ [[]]
      parents := g.parents ++ [none] }, id)

def NodeGraph.add_child (g : NodeGraph) (parent child : Nat) : NodeGraph :=
  { g with
      children := g.children.set parent ((g.children.getD parent []) ++ [child])
      parents := g.parents.set child (some parent) }

/-- Accessors are total over valid ids in the source (out-of-range indexing is
a programming error there); they are totalized here with a default. -/
def NodeGraph.kind (g : NodeGraph) (id : Nat) : NodeKind :=
  g.kinds.getD id (NodeKind.Flow FlowKind.Root)

def NodeGraph.name (g : NodeGraph) (id : Nat) : String :=
  g.names.getD id ""

def NodeGraph.position (g : NodeGraph) (id : Nat) : NodePosition :=
  g.positions.getD id NodePosition.root

def NodeGraph.childrenOf (g : NodeGraph) (id : Nat) : List Nat :=
  g.children.getD id []

def NodeGraph.parentOf (g : NodeGraph) (id : Nat) : Option Nat :=
  g.parents.getD id none

/-- `EffectContext` (src/src/activities/executor.rs). -/
structure EffectContext where
  id : Nat
  name : String
  kind : EffectKind

/-- `EffectExecutor` trait objects, modelled as a record of the two methods. -/
structure EffectExecutor where
  can_execute : EffectKind → Bool
  execute : EffectContext → Except WorkflowError Json

/-- `SimpleRunExecutor` (src/src/activities/executor.rs). -/
def SimpleRunExecutor : EffectExecutor :=
  { can_execute := fun kind => match kind with
      | EffectKind.Run => true
      | _ => false
    execute := fun ctx =>
      Except.ok (Json.obj [("task", Json.str ctx.name), ("result", Json.str "ok")]) }

/-- `EffectRegistry` (src/src/activities/registry.rs). -/
structure EffectRegistry where
  executors : List EffectExecutor

def EffectRegistry.new : EffectRegistry := ⟨[]⟩

def EffectRegistry.with_executor (r : EffectRegistry) (e : EffectExecutor) : EffectRegistry :=
  ⟨r.executors ++ [e]⟩

/-- First executor whose `can_execute` accepts the kind wins; with no match,
fail with a Task error naming the unmatched kind (Debug-formatted). -/
def EffectRegistry.execute (r : EffectRegistry) (ctx : EffectContext) :
    Except WorkflowError Json :=
  match r.executors.find? (fun e => e.can_execute ctx.kind) with
  | some e => e.execute ctx
  | none => Except.error (WorkflowError.Task ("no executor for " ++ ctx.kind.debugRepr))

/-- `NodeState` (src/src/types.rs); `child_index` is an `i32`. -/
structure NodeState where
  started_at : Option Nat
  raw_input : Option Json
  raw_output : Option Json
  child_index : Int
  context : Json

/-- Rust `Default` for `NodeState` (`serde_json::Value::default()` is null). -/
def NodeState.default : NodeState :=
  { started_at := none, raw_input := none, raw_output := none
    child_index := 0, context := Json.null }

/-- `NodeStates` (src/src/engine/node_states.rs): a map from node id to
`NodeState`; the Processor only reads it through `entry(id).or_default()`
style access, so it is modelled as a total function with absent entries
represented by the default state. -/
def NodeStates : Type := Nat → NodeState

/-- `NodeStates::new_for`: the root's entry carries `now_utc()` (passed here
as the explicit timestamp `t`) and the raw input. -/
def NodeStates.new_for (root : Nat) (raw_input : Json) (t : Nat) : NodeStates :=
  fun i => if i = root
    then { NodeState.default with started_at := some t, raw_input := some raw_input }
    else NodeState.default

def setNodeState (m : NodeStates) (i : Nat) (s : NodeState) : NodeStates :=
  fun j => if j = i then s else m j

/-- `WorkflowState` (src/src/types.rs); the UUID `workflow_id` is opaque to
the kernel and modelled as `Nat`. -/
structure WorkflowState where
  workflow_id : Nat
  workflow_name : String
  workflow_version : String
  current_node : Nat
  current_states : NodeStates

/-- `WorkflowState::duplicate` takes `&self`: the receiver is read, cloned
field by field, and never mutated. -/
def WorkflowState.duplicate (s : WorkflowState) (new_id : Nat) : WorkflowState :=
  { s with workflow_id := new_id }

/-- `Backoff` (src/src/outbox/mod.rs). -/
structure Backoff where
  attempt : Nat
  delay_ms : Nat

/-- `OutboxItemKind` (src/src/outbox/mod.rs); the `Wait` payload is the
source's `until` timestamp. -/
inductive OutboxItemKind where
  | Wait (untilTime : Nat)
  | Retry (backoff : Backoff)
  | Schedule (cron : String)

/-- `OutboxItem` (src/src/outbox/mod.rs). -/
structure OutboxItem where
  kind : OutboxItemKind
  metadata : Json

/-- `Message` (src/src/messaging/mod.rs). -/
structure Message where
  topic : String
  payload : Json

/-- `Status` (src/src/engine/processor.rs). -/
inductive Status where
  | Pending | Running | Waiting | Completed | Faulted
  deriving DecidableEq, Repr

/-- `Step` (src/src/engine/processor.rs): the discriminated tick outcome. -/
inductive Step where
  | Next (id : Nat)
  | Wait (item : OutboxItem)
  | Emit (m : Message)
  | Retry (b : Backoff)
  | Done (v : Json)
  | Fault (e : WorkflowError)

/-- Lifecycle callback invocations, recorded as events: the Rust processor
holds five boxed callbacks that are invoked synchronously and have no effect
on control flow. -/
inductive WfEvent where
  | workflowStarted
  | workflowCompleted
  | taskStarted (id : Nat)
  | taskCompleted (id : Nat)
  | taskFaulted (id : Nat)
  deriving DecidableEq, Repr

/-- The mutable part of `Processor` (src/src/engine/processor.rs).  The
`graph` and `effects` fields are immutable for the whole run and are passed
to `tick` as explicit parameters instead. -/
structure Processor where
  workflow_state : WorkflowState
  status : Status
  current : Option Nat
  events : List WfEvent

/-- `Processor::new`: status starts `Pending`, the pointer mirrors
`workflow_state.current_node`. -/
def Processor.new (ws : WorkflowState) : Processor :=
  { workflow_state := ws, status := Status.Pending
    current := some ws.current_node, events := [] }

/-- `Processor::output`: the root's recorded `raw_output`, or null. -/
def output (g : NodeGraph) (p : Processor) : Json :=
  ((p.workflow_state.current_states g.root).raw_output).getD Json.null

/-- The Rust cast `i32 as usize` (sign-extending to the 64-bit bit pattern). -/
def intAsUsize (i : Int) : Nat :=
  (i % (2 : Int) ^ 64).toNat

/-- Shared tail of both dispatch branches in `tick_async`: increment the
parent's `child_index` and move the pointer to the parent, or, with no parent,
clear the pointer and report Done with the final output. -/
def rollToParent (g : NodeGraph) (p : Processor) (id : Nat) : Processor × Step :=
  match g.parentOf id with
  | some parent_id =>
      let ps := p.workflow_state.current_states parent_id
      let ws := { p.workflow_state with
        current_states := setNodeState p.workflow_state.current_states parent_id
          { ps with child_index := ps.child_index + 1 } }
      ({ p with workflow_state := ws, current := some parent_id }, Step.Next parent_id)
  | none =>
      let p := { p with current := none }
      (p, Step.Done (output g p))

/-- Opening of `tick_async`: on the very first tick transition Pending to
Running and fire the workflow-started callback. -/
def startPhase (p : Processor) : Processor :=
  if p.status = Status.Pending
    then { p with status := Status.Running, events := p.events ++ [WfEvent.workflowStarted] }
    else p

/-- The task-started check of `tick_async`: fire the task-started callback
whenever the node's `started_at` is unset (the tick never writes
`started_at`, it only reads it here). -/
def markStarted (p : Processor) (id : Nat) : Processor :=
  if (p.workflow_state.current_states id).started_at = none
    then { p with events := p.events ++ [WfEvent.taskStarted id] }
    else p

/-- `Processor::tick_async` (src/src/engine/processor.rs, lines 66-182). -/
def tick (g : NodeGraph) (r : EffectRegistry) (p : Processor) : Processor × Step :=
  let p := startPhase p
  match p.current with
  | none =>
      let p := { p with status := Status.Completed
                        events := p.events ++ [WfEvent.workflowCompleted] }
      (p, Step.Done (output g p))
  | some id =>
      let p := markStarted p id
      match g.kind id with
      | NodeKind.Effect eff =>
          let ctx : EffectContext := { id := id, name := g.name id, kind := eff }
          let outv := match r.execute ctx with
            | Except.ok v => v
            | Except.error e => Json.obj [("error", Json.str e.display)]
          let st := p.workflow_state.current_states id
          let p := { p with workflow_state := { p.workflow_state with
            current_states := setNodeState p.workflow_state.current_states id
              { st with raw_output := some outv } } }
          let p := { p with events := p.events ++ [WfEvent.taskCompleted id] }
          rollToParent g p id
      | NodeKind.Flow _ =>
          let next_index := intAsUsize (p.workflow_state.current_states id).child_index
          let children := g.childrenOf id
          if h : next_index < children.length then
            let child := children.get ⟨next_index, h⟩
            ({ p with current := some child }, Step.Next child)
          else
            let p := match children.getLast? with
              | some last_child =>
                  match (p.workflow_state.current_states last_child).raw_output with
                  | some out =>
                      let st := p.workflow_state.current_states id
                      { p with workflow_state := { p.workflow_state with
                        current_states := setNodeState p.workflow_state.current_states id
                          { st with raw_output := some out } } }
                  | none => p
              | none => p
            let p := { p with events := p.events ++ [WfEvent.taskCompleted id] }
            rollToParent g p id

/-- Iterate `tick`, keeping only the evolving processor. -/
def tickN (g : NodeGraph) (r : EffectRegistry) : Nat → Processor → Processor
  | 0, p => p
  | k + 1, p => tickN g r k (tick g r p).1

/-- `Processor::run_async`: loop until Done or Fault; fuel-indexed here, with
`none` meaning the loop had not terminated within the given number of ticks. -/
def runN (g : NodeGraph) (r : EffectRegistry) : Nat → Processor → Option Json
  | 0, _ => none
  | fuel + 1, p =>
      match tick g r p with
      | (_, Step.Done v) => some v
      | (p', Step.Fault _) => some (output g p')
      | (p', _) => runN g r fuel p'

/-- An initial `WorkflowState` for a run: pointer at the root, per-node states
freshly created by `NodeStates::new_for`. -/
def initialState (g : NodeGraph) (wfid : Nat) (nm ver : String) (input : Json)
    (t : Nat) : WorkflowState :=
  { workflow_id := wfid, workflow_name := nm, workflow_version := ver
    current_node := g.root
    current_states := NodeStates.new_for g.root input t }

def initialProcessor (g : NodeGraph) (wfid : Nat) (nm ver : String) (input : Json)
    (t : Nat) : Processor :=
  Processor.new (initialState g wfid nm ver input t)

/-- The concrete scenario graph: Root with one Effect(Run) child named "run". -/
def graph1 : NodeGraph :=
  let g := NodeGraph.new_root "root"
  let gi := g.add_node (NodeKind.Effect EffectKind.Run) "run" (NodePosition.root.add_token "run")
  gi.1.add_child 0 gi.2

def registry1 : EffectRegistry := EffectRegistry.new.with_executor SimpleRunExecutor

def proc1 : Processor := initialProcessor graph1 0 "wf" "v1" Json.null 0

def okPayload : Json := Json.obj [("task", Json.str "run"), ("result", Json.str "ok")]

/-- The payload the effect branch stores for node `id` of effect kind `ek`:
the executor result on success, or the error-shaped object built from the
Display rendering of the failure. -/
def effectOutput (g : NodeGraph) (r : EffectRegistry) (id : Nat) (ek : EffectKind) : Json :=
  match r.execute { id := id, name := g.name id, kind := ek } with
  | Except.ok v => v
  | Except.error e => Json.obj [("error", Json.str e.display)]

/-- The value the flow-completion branch leaves in the finishing node's
`raw_output`: the last child's output when there is a last child and it has
one, otherwise the node's own previous `raw_output`. -/
def rollupOutput (g : NodeGraph) (ws : WorkflowState) (id : Nat) : Option Json :=
  match (g.childrenOf id).getLast? with
  | some last_child =>
      match (ws.current_states last_child).raw_output with
      | some out => some out
      | none => (ws.current_states id).raw_output
  | none => (ws.current_states id).raw_output

/-- The state update of the flow-completion branch before control rolls to
the parent: copy the last child's `raw_output` into the node when present. -/
def flowRollupProc (g : NodeGraph) (p : Processor) (id : Nat) : Processor :=
  match (g.childrenOf id).getLast? with
  | some last_child =>
      match (p.workflow_state.current_states last_child).raw_output with
      | some out =>
          { p with workflow_state := { p.workflow_state with
              current_states := setNodeState p.workflow_state.current_states id
                { p.workflow_state.current_states id with raw_output := some out } } }
      | none => p
  | none => p

/-- The second concrete graph: Root (node 0) with a nested Flow(Do) child
"do" (node 1) which has one Effect(Run) child "run" (node 2). -/
def graph3 : NodeGraph :=
  let g := NodeGraph.new_root "root"
  let gd := g.add_node (NodeKind.Flow FlowKind.Do) "do" (NodePosition.root.add_token "do")
  let g1 := gd.1.add_child 0 gd.2
  let gr := g1.add_node (NodeKind.Effect EffectKind.Run) "run"
    ((NodePosition.root.add_token "do").add_token "run")
  gr.1.add_child gd.2 gr.2

def proc3 : Processor := initialProcessor graph3 0 "wf" "v1" Json.null 0

/-- A graph whose root has no children at all. -/
def graph0 : NodeGraph := NodeGraph.new_root "root"

def proc0 : Processor := initialProcessor graph0 0 "wf" "v1" Json.null 0

/-- All segments of a position are free of the path separator. -/
def segmentsSlashFree (p : NodePosition) : Prop :=
  ∀ s ∈ p.path, strContainsSlash s = false

/-- Positions reachable through the constructors `root`, a succeeding
`add_name`, and `add_index` (the amended safe-constructor set; `add_token`
is deliberately excluded because it performs no separator check). -/
inductive SafeBuilt : NodePosition → Prop where
  | root : SafeBuilt NodePosition.root
  | add_name (p : NodePosition) (n : String) (p' : NodePosition) :
      SafeBuilt p → p.add_name n = some p' → SafeBuilt p'
  | add_index (p : NodePosition) (i : Nat) :
      SafeBuilt p → SafeBuilt (p.add_index i)

/-- One parent step: `a` is the recorded parent of `b`. -/
def pstep (g : NodeGraph) (a b : Nat) : Prop :=
  g.parentOf b = some a

/-- `a` is a strict ancestor of `b` along the parent back-references. -/
def ancestorOf (g : NodeGraph) (a b : Nat) : Prop :=
  Relation.TransGen (pstep g) a b

/-- A node's child count. -/
def lenC (g : NodeGraph) (n : Nat) : Nat :=
  (g.childrenOf n).length

/-- A node's stored `child_index`. -/
def ciOf (ws : WorkflowState) (n : Nat) : Int :=
  (ws.current_states n).child_index

/-- Every node's `child_index` is between 0 and its child count. -/
def GlobalBound (g : NodeGraph) (ws : WorkflowState) : Prop :=
  ∀ m, 0 ≤ ciOf ws m ∧ ciOf ws m ≤ (lenC g m : Int)

/-- Every strict ancestor of the current node still has unconsumed children:
its `child_index` is strictly below its child count. -/
def ChainBound (g : NodeGraph) (ws : WorkflowState) (cur : Option Nat) : Prop :=
  ∀ n, cur = some n → ∀ a, ancestorOf g a n → ciOf ws a < (lenC g a : Int)

/-- The run invariant maintained by `tick`. -/
def TickInv (g : NodeGraph) (p : Processor) : Prop :=
  GlobalBound g p.workflow_state ∧ ChainBound g p.workflow_state p.current

/-- Well-formedness of a graph as a tree, as assumed (unchecked) by the
source: the root has no parent, a node listed among the children of `i` has
its parent back-reference set to `i`, parent chains descend along a measure
`d` (acyclicity), and child counts stay below 2^31 (so `i32` arithmetic on
`child_index` cannot overflow).  All conditions are phrased boundedly so they
can be decided on concrete graphs. -/
structure GraphWF (g : NodeGraph) (d : Nat → Nat) : Prop where
  root_parent : g.parentOf g.root = none
  parent_of_child : ∀ i < g.children.length, ∀ c ∈ g.childrenOf i, g.parentOf c = some i
  depth_decreasing : ∀ i < g.parents.length,
    (g.parentOf i).all (fun q => decide (d q < d i)) = true
  children_small : ∀ i < g.children.length, (g.childrenOf i).length < 2 ^ 31

/-- The payload the claim expects for a missing executor. -/
def noExecClaimed : Json := Json.obj [("error", Json.str "no executor for Run")]

/-- The payload the code actually stores for a missing executor: the registry
error is Display-rendered through the thiserror attribute, which prefixes
"task error: ". -/
def noExecActual : Json :=
  Json.obj [("error", Json.str "task error: no executor for Run")]

/-- C1: the concrete scenario. Node 0 is the Flow(Root) node, node 1 the
Effect(Run) node named "run"; the registry holds SimpleRunExecutor. Tick 1
reports Next(1); tick 2 reports Next(0), stores the executor payload as node
1's raw_output and advances node 0's child_index to 1; tick 3 reports Done
with the payload after rolling it up into node 0's raw_output; and the run
loop returns the payload. -/
theorem c1_root_run_scenario :
    (tick graph1 registry1 proc1).2 = Step.Next 1 ∧
    (tick graph1 registry1 (tickN graph1 registry1 1 proc1)).2 = Step.Next 0 ∧
    ((tickN graph1 registry1 2 proc1).workflow_state.current_states 1).raw_output
      = some okPayload ∧
    ((tickN graph1 registry1 2 proc1).workflow_state.current_states 0).child_index = 1 ∧
    (tick graph1 registry1 (tickN graph1 registry1 2 proc1)).2 = Step.Done okPayload ∧
    ((tickN graph1 registry1 3 proc1).workflow_state.current_states 0).raw_output
      = some okPayload ∧
    runN graph1 registry1 10 proc1 = some okPayload :=
  ⟨rfl, rfl, rfl, rfl, rfl, rfl, rfl⟩

/-- C2 counterexample: running the Root/Run graph with an empty registry
yields the payload with message "task error: no executor for Run", which
differs from the claimed "no executor for Run". -/
theorem c2_no_executor_payload_counterexample :
    runN graph1 EffectRegistry.new 10 proc1 = some noExecActual ∧
    noExecActual ≠ noExecClaimed := by
  refine ⟨rfl, fun h => ?_⟩
  simp only [noExecActual, noExecClaimed, Json.obj.injEq, List.cons.injEq,
    Prod.mk.injEq, Json.str.injEq, and_true, true_and] at h
  exact absurd h (by decide)

theorem setNodeState_apply (m : NodeStates) (i : Nat) (s : NodeState) (j : Nat) :
    setNodeState m i s j = if j = i then s else m j := rfl

theorem startPhase_current (p : Processor) : (startPhase p).current = p.current := by
  unfold startPhase; split <;> rfl

theorem startPhase_workflow_state (p : Processor) :
    (startPhase p).workflow_state = p.workflow_state := by
  unfold startPhase; split <;> rfl

theorem markStarted_current (p : Processor) (id : Nat) :
    (markStarted p id).current = p.current := by
  unfold markStarted; split <;> rfl

theorem markStarted_workflow_state (p : Processor) (id : Nat) :
    (markStarted p id).workflow_state = p.workflow_state := by
  unfold markStarted; split <;> rfl

theorem rollToParent_current (g : NodeGraph) (p : Processor) (id : Nat) :
    (rollToParent g p id).1.current = g.parentOf id := by
  unfold rollToParent; split <;> simp_all

theorem rollToParent_raw_output (g : NodeGraph) (p : Processor) (id n : Nat) :
    ((rollToParent g p id).1.workflow_state.current_states n).raw_output =
      ((p.workflow_state.current_states n)).raw_output := by
  unfold rollToParent
  split
  · simp only [setNodeState_apply]
    split <;> simp_all
  · rfl

theorem rollToParent_started_at (g : NodeGraph) (p : Processor) (id n : Nat) :
    ((rollToParent g p id).1.workflow_state.current_states n).started_at =
      ((p.workflow_state.current_states n)).started_at := by
  unfold rollToParent
  split
  · simp only [setNodeState_apply]
    split <;> simp_all
  · rfl

theorem rollToParent_child_index (g : NodeGraph) (p : Processor) (id n : Nat) :
    ciOf (rollToParent g p id).1.workflow_state n =
      (if some n = g.parentOf id then ciOf p.workflow_state n + 1
       else ciOf p.workflow_state n) := by
  unfold rollToParent ciOf
  split
  · rename_i pid hpid
    simp only [setNodeState_apply, hpid]
    by_cases h : n = pid <;> simp [h]
  · rename_i hnone
    simp [hnone]

theorem rollToParent_step (g : NodeGraph) (p : Processor) (id : Nat) :
    (∃ i, (rollToParent g p id).2 = Step.Next i) ∨
      (∃ v, (rollToParent g p id).2 = Step.Done v) := by
  unfold rollToParent
  split
  · exact Or.inl ⟨_, rfl⟩
  · exact Or.inr ⟨_, rfl⟩

theorem tick_none (g : NodeGraph) (r : EffectRegistry) (p : Processor)
    (h : p.current = none) :
    (tick g r p).1.workflow_state = p.workflow_state ∧
    (tick g r p).1.current = none ∧
    (tick g r p).2 = Step.Done (output g p) ∧
    (tick g r p).1.status = Status.Completed := by
  unfold tick
  dsimp only
  rw [startPhase_current, h]
  dsimp only
  refine ⟨startPhase_workflow_state p, rfl, ?_, rfl⟩
  simp only [output, startPhase_workflow_state]

theorem tick_step_shape (g : NodeGraph) (r : EffectRegistry) (p : Processor) :
    (∃ i, (tick g r p).2 = Step.Next i) ∨ (∃ v, (tick g r p).2 = Step.Done v) := by
  unfold tick
  dsimp only
  cases h : (startPhase p).current with
  | none => exact Or.inr ⟨_, rfl⟩
  | some id =>
      dsimp only
      cases hk : NodeGraph.kind g id with
      | Effect ek => exact rollToParent_step ..
      | Flow fk =>
          dsimp only
          split
          · exact Or.inl ⟨_, rfl⟩
          · exact rollToParent_step ..

theorem phase_workflow_state (p : Processor) (id : Nat) :
    (markStarted (startPhase p) id).workflow_state = p.workflow_state :=
  (markStarted_workflow_state _ _).trans (startPhase_workflow_state _)

theorem tick_effect_eq (g : NodeGraph) (r : EffectRegistry) (p : Processor)
    (id : Nat) (ek : EffectKind)
    (hcur : p.current = some id) (hk : g.kind id = NodeKind.Effect ek) :
    tick g r p = rollToParent g
      { markStarted (startPhase p) id with
          workflow_state := { (markStarted (startPhase p) id).workflow_state with
            current_states :=
              setNodeState (markStarted (startPhase p) id).workflow_state.current_states id
                { (markStarted (startPhase p) id).workflow_state.current_states id with
                    raw_output := some (effectOutput g r id ek) } }
          events := (markStarted (startPhase p) id).events ++ [WfEvent.taskCompleted id] }
      id := by
  unfold tick
  dsimp only
  rw [startPhase_current, hcur]
  dsimp only
  rw [hk]
  rfl

theorem startPhase_status (p : Processor) :
    (startPhase p).status = Status.Running ∨ (startPhase p).status = p.status := by
  unfold startPhase; split
  · exact Or.inl rfl
  · exact Or.inr rfl

theorem markStarted_status (p : Processor) (id : Nat) :
    (markStarted p id).status = p.status := by
  unfold markStarted; split <;> rfl

theorem rollToParent_status (g : NodeGraph) (p : Processor) (id : Nat) :
    (rollToParent g p id).1.status = p.status := by
  unfold rollToParent; split <;> rfl

theorem flowRollupProc_workflow_ci (g : NodeGraph) (p : Processor) (id n : Nat) :
    ciOf (flowRollupProc g p id).workflow_state n = ciOf p.workflow_state n := by
  unfold flowRollupProc ciOf
  split
  · split
    · simp only [setNodeState_apply]
      split <;> simp_all
    · rfl
  · rfl

theorem flowRollupProc_current (g : NodeGraph) (p : Processor) (id : Nat) :
    (flowRollupProc g p id).current = p.current := by
  unfold flowRollupProc
  split
  · split <;> rfl
  · rfl

theorem flowRollupProc_status (g : NodeGraph) (p : Processor) (id : Nat) :
    (flowRollupProc g p id).status = p.status := by
  unfold flowRollupProc
  split
  · split <;> rfl
  · rfl

theorem flowRollupProc_raw_output_id (g : NodeGraph) (p : Processor) (id : Nat) :
    (((flowRollupProc g p id).workflow_state.current_states id)).raw_output =
      rollupOutput g p.workflow_state id := by
  unfold flowRollupProc rollupOutput
  split
  · split
    · simp [setNodeState]
    · rfl
  · rfl

theorem flowRollupProc_raw_output_ne (g : NodeGraph) (p : Processor) (id n : Nat)
    (h : n ≠ id) :
    (((flowRollupProc g p id).workflow_state.current_states n)).raw_output =
      ((p.workflow_state.current_states n)).raw_output := by
  unfold flowRollupProc
  split
  · split
    · simp [setNodeState, h]
    · rfl
  · rfl

theorem flowRollupProc_started_at (g : NodeGraph) (p : Processor) (id n : Nat) :
    (((flowRollupProc g p id).workflow_state.current_states n)).started_at =
      ((p.workflow_state.current_states n)).started_at := by
  unfold flowRollupProc
  split
  · split
    · simp only [setNodeState_apply]
      split <;> simp_all
    · rfl
  · rfl

theorem tick_flow_descend (g : NodeGraph) (r : EffectRegistry) (p : Processor)
    (id : Nat) (fk : FlowKind)
    (hcur : p.current = some id) (hk : g.kind id = NodeKind.Flow fk)
    (hlt : intAsUsize ((p.workflow_state.current_states id)).child_index
            < (g.childrenOf id).length) :
    (tick g r p).1.workflow_state = p.workflow_state ∧
    (tick g r p).1.current =
      some ((g.childrenOf id).get
        ⟨intAsUsize ((p.workflow_state.current_states id)).child_index, hlt⟩) ∧
    (tick g r p).2 = Step.Next ((g.childrenOf id).get
        ⟨intAsUsize ((p.workflow_state.current_states id)).child_index, hlt⟩) ∧
    (tick g r p).1.status = (markStarted (startPhase p) id).status := by
  unfold tick
  dsimp only
  rw [startPhase_current, hcur]
  dsimp only
  rw [hk]
  dsimp only
  rw [phase_workflow_state]
  rw [dif_pos hlt]
  exact ⟨rfl, rfl, rfl, rfl⟩

theorem tick_flow_complete_eq (g : NodeGraph) (r : EffectRegistry) (p : Processor)
    (id : Nat) (fk : FlowKind)
    (hcur : p.current = some id) (hk : g.kind id = NodeKind.Flow fk)
    (hge : ¬ intAsUsize ((p.workflow_state.current_states id)).child_index
            < (g.childrenOf id).length) :
    tick g r p = rollToParent g
      { flowRollupProc g (markStarted (startPhase p) id) id with
          events := (flowRollupProc g (markStarted (startPhase p) id) id).events
            ++ [WfEvent.taskCompleted id] } id := by
  unfold tick
  dsimp only
  rw [startPhase_current, hcur]
  dsimp only
  rw [hk]
  dsimp only
  rw [phase_workflow_state]
  rw [dif_neg hge]
  unfold flowRollupProc
  rw [phase_workflow_state]

theorem tick_effect_raw_output (g : NodeGraph) (r : EffectRegistry) (p : Processor)
    (id : Nat) (ek : EffectKind)
    (hcur : p.current = some id) (hk : g.kind id = NodeKind.Effect ek) :
    ((tick g r p).1.workflow_state.current_states id).raw_output
      = some (effectOutput g r id ek) := by
  rw [tick_effect_eq g r p id ek hcur hk, rollToParent_raw_output]
  simp [setNodeState]

theorem tick_effect_current (g : NodeGraph) (r : EffectRegistry) (p : Processor)
    (id : Nat) (ek : EffectKind)
    (hcur : p.current = some id) (hk : g.kind id = NodeKind.Effect ek) :
    (tick g r p).1.current = g.parentOf id := by
  rw [tick_effect_eq g r p id ek hcur hk, rollToParent_current]

theorem tick_effect_ci (g : NodeGraph) (r : EffectRegistry) (p : Processor)
    (id : Nat) (ek : EffectKind)
    (hcur : p.current = some id) (hk : g.kind id = NodeKind.Effect ek) (n : Nat) :
    ciOf (tick g r p).1.workflow_state n =
      (if some n = g.parentOf id then ciOf p.workflow_state n + 1
       else ciOf p.workflow_state n) := by
  rw [tick_effect_eq g r p id ek hcur hk, rollToParent_child_index]
  have hws : ∀ m, ciOf { (markStarted (startPhase p) id).workflow_state with
      current_states :=
        setNodeState (markStarted (startPhase p) id).workflow_state.current_states id
          { (markStarted (startPhase p) id).workflow_state.current_states id with
              raw_output := some (effectOutput g r id ek) } } m
      = ciOf p.workflow_state m := by
    intro m
    unfold ciOf
    dsimp only
    rw [setNodeState_apply]
    split
    · rename_i hm
      subst hm
      rw [phase_workflow_state]
    · rw [phase_workflow_state]
  rw [hws]

theorem tick_flow_complete_current (g : NodeGraph) (r : EffectRegistry) (p : Processor)
    (id : Nat) (fk : FlowKind)
    (hcur : p.current = some id) (hk : g.kind id = NodeKind.Flow fk)
    (hge : ¬ intAsUsize ((p.workflow_state.current_states id)).child_index
            < (g.childrenOf id).length) :
    (tick g r p).1.current = g.parentOf id := by
  rw [tick_flow_complete_eq g r p id fk hcur hk hge, rollToParent_current]

theorem tick_flow_complete_ci (g : NodeGraph) (r : EffectRegistry) (p : Processor)
    (id : Nat) (fk : FlowKind)
    (hcur : p.current = some id) (hk : g.kind id = NodeKind.Flow fk)
    (hge : ¬ intAsUsize ((p.workflow_state.current_states id)).child_index
            < (g.childrenOf id).length) (n : Nat) :
    ciOf (tick g r p).1.workflow_state n =
      (if some n = g.parentOf id then ciOf p.workflow_state n + 1
       else ciOf p.workflow_state n) := by
  rw [tick_flow_complete_eq g r p id fk hcur hk hge, rollToParent_child_index]
  have h1 : ∀ m, ciOf { flowRollupProc g (markStarted (startPhase p) id) id with
      events := (flowRollupProc g (markStarted (startPhase p) id) id).events
        ++ [WfEvent.taskCompleted id] }.workflow_state m = ciOf p.workflow_state m := by
    intro m
    show ciOf (flowRollupProc g (markStarted (startPhase p) id) id).workflow_state m
      = ciOf p.workflow_state m
    rw [flowRollupProc_workflow_ci]
    unfold ciOf
    rw [phase_workflow_state]
  rw [h1]

theorem tick_flow_complete_raw_id (g : NodeGraph) (r : EffectRegistry) (p : Processor)
    (id : Nat) (fk : FlowKind)
    (hcur : p.current = some id) (hk : g.kind id = NodeKind.Flow fk)
    (hge : ¬ intAsUsize ((p.workflow_state.current_states id)).child_index
            < (g.childrenOf id).length) :
    ((tick g r p).1.workflow_state.current_states id).raw_output =
      rollupOutput g p.workflow_state id := by
  rw [tick_flow_complete_eq g r p id fk hcur hk hge, rollToParent_raw_output]
  show ((flowRollupProc g (markStarted (startPhase p) id) id).workflow_state.current_states id).raw_output = _
  rw [flowRollupProc_raw_output_id]
  unfold rollupOutput
  rw [phase_workflow_state]

theorem tick_flow_complete_raw_ne (g : NodeGraph) (r : EffectRegistry) (p : Processor)
    (id : Nat) (fk : FlowKind)
    (hcur : p.current = some id) (hk : g.kind id = NodeKind.Flow fk)
    (hge : ¬ intAsUsize ((p.workflow_state.current_states id)).child_index
            < (g.childrenOf id).length) (n : Nat) (hn : n ≠ id) :
    ((tick g r p).1.workflow_state.current_states n).raw_output =
      ((p.workflow_state.current_states n)).raw_output := by
  rw [tick_flow_complete_eq g r p id fk hcur hk hge, rollToParent_raw_output]
  show ((flowRollupProc g (markStarted (startPhase p) id) id).workflow_state.current_states n).raw_output = _
  rw [flowRollupProc_raw_output_ne g _ id n hn, phase_workflow_state]

/-- C2 (amended): an effect node whose kind no registered executor accepts
still yields a Next or Done outcome, and the node's raw_output becomes the
error-shaped payload whose message is the Display rendering of the registry
error, i.e. "task error: no executor for <kind>"; concretely, the Root/Run
graph with an empty registry runs to the payload carrying
"task error: no executor for Run". -/
theorem c2_no_executor_absorbed (g : NodeGraph) (r : EffectRegistry) (p : Processor)
    (id : Nat) (ek : EffectKind)
    (hcur : p.current = some id) (hk : g.kind id = NodeKind.Effect ek)
    (hnone : ∀ e ∈ r.executors, e.can_execute ek = false) :
    ((∃ i, (tick g r p).2 = Step.Next i) ∨ (∃ v, (tick g r p).2 = Step.Done v)) ∧
    ((tick g r p).1.workflow_state.current_states id).raw_output =
      some (Json.obj [("error",
        Json.str ("task error: no executor for " ++ ek.debugRepr))]) ∧
    runN graph1 EffectRegistry.new 10 proc1 = some noExecActual := by
  have hfind : r.executors.find? (fun e => e.can_execute ek) = none := by
    rw [List.find?_eq_none]
    intro e he
    simp [hnone e he]
  have heo : effectOutput g r id ek =
      Json.obj [("error", Json.str ("task error: no executor for " ++ ek.debugRepr))] := by
    simp [effectOutput, EffectRegistry.execute, hfind, WorkflowError.display]
    rw [← String.append_assoc]
    rfl
  refine ⟨tick_step_shape g r p, ?_, rfl⟩
  rw [tick_effect_raw_output g r p id ek hcur hk, heo]

/-- Witness for C2's amended theorem at the Root/Run graph with the empty
registry, after one tick (so the pointer rests on the effect node). -/
theorem c2_no_executor_absorbed_witness :
    (tickN graph1 EffectRegistry.new 1 proc1).current = some 1 ∧
    graph1.kind 1 = NodeKind.Effect EffectKind.Run ∧
    (∀ e ∈ EffectRegistry.new.executors, e.can_execute EffectKind.Run = false) ∧
    (((∃ i, (tick graph1 EffectRegistry.new (tickN graph1 EffectRegistry.new 1 proc1)).2
          = Step.Next i) ∨
      (∃ v, (tick graph1 EffectRegistry.new (tickN graph1 EffectRegistry.new 1 proc1)).2
          = Step.Done v)) ∧
     ((tick graph1 EffectRegistry.new
        (tickN graph1 EffectRegistry.new 1 proc1)).1.workflow_state.current_states 1).raw_output =
       some (Json.obj [("error",
         Json.str ("task error: no executor for " ++ EffectKind.Run.debugRepr))]) ∧
     runN graph1 EffectRegistry.new 10 proc1 = some noExecActual) :=
  ⟨rfl, rfl, by simp [EffectRegistry.new],
    c2_no_executor_absorbed graph1 EffectRegistry.new
      (tickN graph1 EffectRegistry.new 1 proc1) 1 EffectKind.Run rfl rfl
      (by simp [EffectRegistry.new])⟩

/-- C3: when a Flow node finishes (its child_index, read as the Rust usize
cast, has reached its child count) and its last child's raw_output holds a
value, the tick copies that value into the finishing node's own raw_output;
concretely, on the nested Root/Do/Run graph the completed run rolls the
effect payload up into the Do node and then the Root, and the run returns
it. -/
theorem c3_flow_rollup (g : NodeGraph) (r : EffectRegistry) (p : Processor)
    (id lc : Nat) (fk : FlowKind) (v : Json)
    (hcur : p.current = some id) (hk : g.kind id = NodeKind.Flow fk)
    (hge : ¬ intAsUsize ((p.workflow_state.current_states id)).child_index
            < (g.childrenOf id).length)
    (hlast : (g.childrenOf id).getLast? = some lc)
    (hout : ((p.workflow_state.current_states lc)).raw_output = some v) :
    ((tick g r p).1.workflow_state.current_states id).raw_output = some v ∧
    ((tickN graph3 registry1 4 proc3).workflow_state.current_states 1).raw_output
      = some okPayload ∧
    ((tickN graph3 registry1 5 proc3).workflow_state.current_states 0).raw_output
      = some okPayload ∧
    runN graph3 registry1 10 proc3 = some okPayload := by
  refine ⟨?_, rfl, rfl, rfl⟩
  rw [tick_flow_complete_raw_id g r p id fk hcur hk hge]
  simp [rollupOutput, hlast, hout]

/-- Witness for C3 at the Root/Run graph after two ticks: the Root is
finishing and its only child holds the executor payload. -/
theorem c3_flow_rollup_witness :
    (tickN graph1 registry1 2 proc1).current = some 0 ∧
    graph1.kind 0 = NodeKind.Flow FlowKind.Root ∧
    (¬ intAsUsize (((tickN graph1 registry1 2 proc1).workflow_state.current_states 0)).child_index
        < (graph1.childrenOf 0).length) ∧
    (graph1.childrenOf 0).getLast? = some 1 ∧
    (((tickN graph1 registry1 2 proc1).workflow_state.current_states 1)).raw_output
      = some okPayload ∧
    (((tick graph1 registry1 (tickN graph1 registry1 2 proc1)).1.workflow_state.current_states 0).raw_output
        = some okPayload ∧
      ((tickN graph3 registry1 4 proc3).workflow_state.current_states 1).raw_output
        = some okPayload ∧
      ((tickN graph3 registry1 5 proc3).workflow_state.current_states 0).raw_output
        = some okPayload ∧
      runN graph3 registry1 10 proc3 = some okPayload) :=
  ⟨rfl, rfl, by decide, rfl, rfl,
    c3_flow_rollup graph1 registry1 (tickN graph1 registry1 2 proc1) 0 1 FlowKind.Root
      okPayload rfl rfl (by decide) rfl rfl⟩

/-- C10: a finishing Flow node with no children, or whose last child has no
raw_output, keeps its own raw_output unchanged; and the run on a graph whose
root has no children terminates immediately with output null. -/
theorem c10_rollup_keeps_output (g : NodeGraph) (r : EffectRegistry) (p : Processor)
    (id : Nat) (fk : FlowKind)
    (hcur : p.current = some id) (hk : g.kind id = NodeKind.Flow fk)
    (hge : ¬ intAsUsize ((p.workflow_state.current_states id)).child_index
            < (g.childrenOf id).length) :
    ((g.childrenOf id = [] →
        ((tick g r p).1.workflow_state.current_states id).raw_output =
          ((p.workflow_state.current_states id)).raw_output) ∧
     (∀ lc, (g.childrenOf id).getLast? = some lc →
        ((p.workflow_state.current_states lc)).raw_output = none →
        ((tick g r p).1.workflow_state.current_states id).raw_output =
          ((p.workflow_state.current_states id)).raw_output) ∧
     runN graph0 registry1 10 proc0 = some Json.null) := by
  refine ⟨?_, ?_, rfl⟩
  · intro hnil
    rw [tick_flow_complete_raw_id g r p id fk hcur hk hge]
    simp [rollupOutput, hnil]
  · intro lc hlast hnone
    rw [tick_flow_complete_raw_id g r p id fk hcur hk hge]
    simp [rollupOutput, hlast, hnone]

/-- Witness for C10 at the childless-root graph: the root finishes at once
with no children and its raw_output stays none. -/
theorem c10_rollup_keeps_output_witness :
    proc0.current = some 0 ∧
    graph0.kind 0 = NodeKind.Flow FlowKind.Root ∧
    (¬ intAsUsize ((proc0.workflow_state.current_states 0)).child_index
        < (graph0.childrenOf 0).length) ∧
    ((graph0.childrenOf 0 = [] →
        ((tick graph0 registry1 proc0).1.workflow_state.current_states 0).raw_output =
          ((proc0.workflow_state.current_states 0)).raw_output) ∧
     (∀ lc, (graph0.childrenOf 0).getLast? = some lc →
        ((proc0.workflow_state.current_states lc)).raw_output = none →
        ((tick graph0 registry1 proc0).1.workflow_state.current_states 0).raw_output =
          ((proc0.workflow_state.current_states 0)).raw_output) ∧
     runN graph0 registry1 10 proc0 = some Json.null) :=
  ⟨rfl, rfl, by decide,
    c10_rollup_keeps_output graph0 registry1 proc0 0 FlowKind.Root rfl rfl (by decide)⟩

/-- C9: duplicate returns a state with the given new identity and all other
fields (name, version, current node, per-node states) equal to the
receiver's; the receiver is read through an immutable reference in the
source and the model is a pure function, so the original is unchanged. -/
theorem c9_duplicate_fresh_identity (s : WorkflowState) (n : Nat) :
    (s.duplicate n).workflow_id = n ∧
    (s.duplicate n).workflow_name = s.workflow_name ∧
    (s.duplicate n).workflow_version = s.workflow_version ∧
    (s.duplicate n).current_node = s.current_node ∧
    (s.duplicate n).current_states = s.current_states :=
  ⟨rfl, rfl, rfl, rfl, rfl⟩

set_option maxRecDepth 4096 in
/-- C4 (divergence exhibit): on the nested Root/Do/Run graph, the run
completes, yet the Do node's started_at is still unset afterwards — the tick
never writes started_at — so the task-started callback fired twice for the
Do node (ticks 2 and 4) instead of at most once. -/
theorem c4_started_at_never_written :
    ((tickN graph3 registry1 5 proc3).workflow_state.current_states 1).started_at = none ∧
    ((tickN graph3 registry1 5 proc3).events.count (WfEvent.taskStarted 1)) = 2 ∧
    runN graph3 registry1 10 proc3 = some okPayload :=
  ⟨rfl, rfl, rfl⟩

theorem rollToParent_done (g : NodeGraph) (p : Processor) (id : Nat) (v : Json)
    (h : (rollToParent g p id).2 = Step.Done v) :
    (rollToParent g p id).1.current = none ∧ v = output g (rollToParent g p id).1 := by
  unfold rollToParent at h ⊢
  split at h
  · dsimp only at h
    exact absurd h (by simp)
  · dsimp only at h ⊢
    cases h
    exact ⟨rfl, rfl⟩

theorem tick_done (g : NodeGraph) (r : EffectRegistry) (p : Processor) (v : Json)
    (h : (tick g r p).2 = Step.Done v) :
    (tick g r p).1.current = none ∧ v = output g (tick g r p).1 := by
  cases hc : p.current with
  | none =>
      obtain ⟨hws, hcur, hstep, _⟩ := tick_none g r p hc
      rw [hstep] at h
      cases h
      refine ⟨hcur, ?_⟩
      unfold output
      rw [hws]
  | some id =>
      cases hk : g.kind id with
      | Effect ek =>
          rw [tick_effect_eq g r p id ek hc hk] at h ⊢
          exact rollToParent_done _ _ _ _ h
      | Flow fk =>
          by_cases hlt : intAsUsize ((p.workflow_state.current_states id)).child_index
              < (g.childrenOf id).length
          · obtain ⟨_, _, hstep, _⟩ := tick_flow_descend g r p id fk hc hk hlt
            rw [hstep] at h
            exact absurd h (by simp)
          · rw [tick_flow_complete_eq g r p id fk hc hk hlt] at h ⊢
            exact rollToParent_done _ _ _ _ h

theorem tickN_none (g : NodeGraph) (r : EffectRegistry) (k : Nat) (p : Processor)
    (h : p.current = none) :
    (tickN g r k p).current = none ∧ (tickN g r k p).workflow_state = p.workflow_state := by
  induction k generalizing p with
  | zero => exact ⟨h, rfl⟩
  | succ k ih =>
      obtain ⟨hws, hcur, _, _⟩ := tick_none g r p h
      show (tickN g r k (tick g r p).1).current = none ∧
        (tickN g r k (tick g r p).1).workflow_state = p.workflow_state
      exact ⟨(ih _ hcur).1, ((ih _ hcur).2).trans hws⟩

/-- C6: once a tick has reported Done, any number of further ticks leaves the
WorkflowState exactly as it was, and the next tick reports Done with the
same payload again. -/
theorem c6_done_idempotent (g : NodeGraph) (r : EffectRegistry)
    (p p' : Processor) (v : Json) (k : Nat)
    (h : tick g r p = (p', Step.Done v)) :
    (tickN g r k p').workflow_state = p'.workflow_state ∧
    (tick g r (tickN g r k p')).2 = Step.Done v ∧
    (tick g r (tickN g r k p')).1.workflow_state = p'.workflow_state := by
  have h2 : (tick g r p).2 = Step.Done v := by rw [h]
  have h1 : (tick g r p).1 = p' := by rw [h]
  obtain ⟨hcn, hv⟩ := tick_done g r p v h2
  rw [h1] at hcn hv
  obtain ⟨hkc, hkw⟩ := tickN_none g r k p' hcn
  obtain ⟨hws2, _, hstep2, _⟩ := tick_none g r (tickN g r k p') hkc
  refine ⟨hkw, ?_, hws2.trans hkw⟩
  rw [hstep2, hv]
  have hout : output g (tickN g r k p') = output g p' := by
    unfold output
    rw [hkw]
  rw [hout]

/-- Witness for C6 at the third tick of the Root/Run scenario, re-ticking 4
more times. -/
theorem c6_done_idempotent_witness :
    tick graph1 registry1 (tickN graph1 registry1 2 proc1)
      = ((tick graph1 registry1 (tickN graph1 registry1 2 proc1)).1, Step.Done okPayload) ∧
    ((tickN graph1 registry1 4
        (tick graph1 registry1 (tickN graph1 registry1 2 proc1)).1).workflow_state
      = (tick graph1 registry1 (tickN graph1 registry1 2 proc1)).1.workflow_state ∧
     (tick graph1 registry1 (tickN graph1 registry1 4
        (tick graph1 registry1 (tickN graph1 registry1 2 proc1)).1)).2
      = Step.Done okPayload ∧
     (tick graph1 registry1 (tickN graph1 registry1 4
        (tick graph1 registry1 (tickN graph1 registry1 2 proc1)).1)).1.workflow_state
      = (tick graph1 registry1 (tickN graph1 registry1 2 proc1)).1.workflow_state) :=
  ⟨rfl, c6_done_idempotent graph1 registry1 (tickN graph1 registry1 2 proc1)
    (tick graph1 registry1 (tickN graph1 registry1 2 proc1)).1 okPayload 4 rfl⟩

theorem tick_status (g : NodeGraph) (r : EffectRegistry) (p : Processor) :
    (tick g r p).1.status = Status.Completed ∨ (tick g r p).1.status = Status.Running ∨
    (tick g r p).1.status = p.status := by
  cases hc : p.current with
  | none => exact Or.inl (tick_none g r p hc).2.2.2
  | some id =>
      have hph : (markStarted (startPhase p) id).status = Status.Running ∨
          (markStarted (startPhase p) id).status = p.status := by
        rw [markStarted_status]
        exact startPhase_status p
      cases hk : g.kind id with
      | Effect ek =>
          rw [tick_effect_eq g r p id ek hc hk, rollToParent_status]
          exact Or.inr hph
      | Flow fk =>
          by_cases hlt : intAsUsize ((p.workflow_state.current_states id)).child_index
              < (g.childrenOf id).length
          · obtain ⟨_, _, _, hst⟩ := tick_flow_descend g r p id fk hc hk hlt
            rw [hst]
            exact Or.inr hph
          · rw [tick_flow_complete_eq g r p id fk hc hk hlt, rollToParent_status]
            dsimp only
            rw [flowRollupProc_status, markStarted_status]
            rcases startPhase_status p with h1 | h1
            · exact Or.inr (Or.inl h1)
            · exact Or.inr (Or.inr h1)

theorem tickN_status (g : NodeGraph) (r : EffectRegistry) (k : Nat) (p : Processor)
    (h : p.status = Status.Pending ∨ p.status = Status.Running ∨
      p.status = Status.Completed) :
    (tickN g r k p).status = Status.Pending ∨ (tickN g r k p).status = Status.Running ∨
      (tickN g r k p).status = Status.Completed := by
  induction k generalizing p with
  | zero => exact h
  | succ k ih =>
      show (tickN g r k (tick g r p).1).status = Status.Pending ∨ _ ∨ _
      refine ih _ ?_
      rcases tick_status g r p with h1 | h1 | h1
      · exact Or.inr (Or.inr h1)
      · exact Or.inr (Or.inl h1)
      · rw [h1]
        exact h

/-- C7: a tick only ever reports Next or Done (never Wait, Emit, Retry or
Fault), and along any run from a fresh processor — whose status starts
Pending — the status only ever takes the values Pending, Running and
Completed (never Waiting or Faulted). -/
theorem c7_outcomes_and_statuses :
    (∀ (g : NodeGraph) (r : EffectRegistry) (p : Processor),
      (∃ i, (tick g r p).2 = Step.Next i) ∨ (∃ v, (tick g r p).2 = Step.Done v)) ∧
    (∀ (g : NodeGraph) (wfid : Nat) (nm ver : String) (input : Json) (t : Nat),
      (initialProcessor g wfid nm ver input t).status = Status.Pending) ∧
    (∀ (g : NodeGraph) (r : EffectRegistry) (wfid : Nat) (nm ver : String)
        (input : Json) (t : Nat) (k : Nat),
      (tickN g r k (initialProcessor g wfid nm ver input t)).status = Status.Pending ∨
      (tickN g r k (initialProcessor g wfid nm ver input t)).status = Status.Running ∨
      (tickN g r k (initialProcessor g wfid nm ver input t)).status = Status.Completed) :=
  ⟨tick_step_shape, fun _ _ _ _ _ _ => rfl,
    fun g r wfid nm ver input t k =>
      tickN_status g r k (initialProcessor g wfid nm ver input t) (Or.inl rfl)⟩

theorem digitChar_no_slash : ∀ m < 10, Nat.digitChar m ≠ '/' := by decide

theorem toDigitsCore_no_slash (fuel : Nat) : ∀ (n : Nat) (ds : List Char),
    (∀ c ∈ ds, c ≠ '/') → ∀ c ∈ Nat.toDigitsCore 10 fuel n ds, c ≠ '/' := by
  induction fuel with
  | zero => intro n ds hds; exact hds
  | succ fuel ih =>
      intro n ds hds
      unfold Nat.toDigitsCore
      dsimp only
      have hd : Nat.digitChar (n % 10) ≠ '/' :=
        digitChar_no_slash (n % 10) (Nat.mod_lt _ (by decide))
      have hcons : ∀ c ∈ Nat.digitChar (n % 10) :: ds, c ≠ '/' := by
        intro c hc
        rcases List.mem_cons.mp hc with h | h
        · subst h; exact hd
        · exact hds c h
      split
      · exact hcons
      · exact ih _ _ hcons

theorem contains_slash_false {l : List Char} (h : ∀ c ∈ l, c ≠ '/') :
    l.contains '/' = false := by
  induction l with
  | nil => rfl
  | cons b bs ih =>
      have hb : b ≠ '/' := h b (List.mem_cons_self b bs)
      have hbs : ∀ c ∈ bs, c ≠ '/' := fun c hc => h c (List.mem_cons_of_mem b hc)
      simp [List.contains, List.elem_cons, ih hbs]
      exact ⟨fun he => hb he.symm, fun hm => hbs '/' hm rfl⟩

theorem repr_no_slash (i : Nat) : strContainsSlash (Nat.repr i) = false := by
  unfold strContainsSlash Nat.repr
  exact contains_slash_false (toDigitsCore_no_slash _ _ [] (by intro c hc; cases hc))

/-- C8 counterexample: `add_token` is one of the public constructors, and it
admits a segment containing the path separator. -/
theorem c8_add_token_counterexample :
    (NodePosition.root.add_token "a/b").path = ["a/b"] ∧
    ¬ segmentsSlashFree (NodePosition.root.add_token "a/b") :=
  ⟨rfl, by unfold segmentsSlashFree; decide⟩

/-- C8 (amended): positions built through `root`, a succeeding `add_name`,
and `add_index` have separator-free segments, and `root()` is the empty
sequence; `add_token` performs no such check. -/
theorem c8_safe_constructors_slash_free (p : NodePosition) (h : SafeBuilt p) :
    segmentsSlashFree p ∧ NodePosition.root.path = [] := by
  refine ⟨?_, rfl⟩
  induction h with
  | root => intro s hs; cases hs
  | add_name q n q' hq hname ih =>
      unfold NodePosition.add_name at hname
      by_cases hc : strContainsSlash n
      · rw [if_pos hc] at hname
        cases hname
      · rw [if_neg hc] at hname
        cases hname
        intro s hs
        rcases List.mem_append.mp hs with h1 | h1
        · exact ih s h1
        · rcases List.mem_singleton.mp h1 with h2
          rw [h2]
          exact Bool.of_not_eq_true hc
  | add_index q i hq ih =>
      intro s hs
      rcases List.mem_append.mp hs with h1 | h1
      · exact ih s h1
      · rcases List.mem_singleton.mp h1 with h2
        rw [h2]
        exact repr_no_slash i

/-- Witness for C8's amended theorem at the position built by root, then
add_name "a", then add_index 0. -/
theorem c8_safe_constructors_slash_free_witness :
    SafeBuilt ((NodePosition.root.add_token "a").add_index 0) ∧
    (segmentsSlashFree ((NodePosition.root.add_token "a").add_index 0) ∧
      NodePosition.root.path = []) :=
  have hb : SafeBuilt ((NodePosition.root.add_token "a").add_index 0) :=
    SafeBuilt.add_index (NodePosition.root.add_token "a") 0
      (SafeBuilt.add_name NodePosition.root "a" (NodePosition.root.add_token "a")
        SafeBuilt.root rfl)
  ⟨hb, c8_safe_constructors_slash_free _ hb⟩

theorem intAsUsize_small (i : Int) (h0 : 0 ≤ i) (hlt : i < (2 : Int) ^ 64) :
    intAsUsize i = i.toNat := by
  unfold intAsUsize
  rw [Int.emod_eq_of_lt h0 hlt]

theorem childrenOf_out (g : NodeGraph) (i : Nat) (hi : ¬ i < g.children.length) :
    g.childrenOf i = [] := by
  unfold NodeGraph.childrenOf
  exact List.getD_eq_default _ _ (Nat.le_of_not_lt hi)

theorem parentOf_out (g : NodeGraph) (i : Nat) (hi : ¬ i < g.parents.length) :
    g.parentOf i = none := by
  unfold NodeGraph.parentOf
  exact List.getD_eq_default _ _ (Nat.le_of_not_lt hi)

theorem wf_parent_of_child {g : NodeGraph} {d : Nat → Nat} (hwf : GraphWF g d)
    {i c : Nat} (hc : c ∈ g.childrenOf i) : g.parentOf c = some i := by
  by_cases hi : i < g.children.length
  · exact hwf.parent_of_child i hi c hc
  · rw [childrenOf_out g i hi] at hc
    cases hc

theorem wf_depth {g : NodeGraph} {d : Nat → Nat} (hwf : GraphWF g d)
    {i q : Nat} (h : g.parentOf i = some q) : d q < d i := by
  by_cases hi : i < g.parents.length
  · have h2 := hwf.depth_decreasing i hi
    rw [h] at h2
    simpa using h2
  · rw [parentOf_out g i hi] at h
    cases h

theorem wf_children_small {g : NodeGraph} {d : Nat → Nat} (hwf : GraphWF g d)
    (i : Nat) : (g.childrenOf i).length < 2 ^ 31 := by
  by_cases hi : i < g.children.length
  · exact hwf.children_small i hi
  · rw [childrenOf_out g i hi]
    norm_num

theorem ancestor_depth {g : NodeGraph} {d : Nat → Nat} (hwf : GraphWF g d)
    {a b : Nat} (h : ancestorOf g a b) : d a < d b := by
  induction h with
  | single hstep => exact wf_depth hwf hstep
  | tail hab hstep ih => exact lt_trans ih (wf_depth hwf hstep)

theorem ancestor_irrefl {g : NodeGraph} {d : Nat → Nat} (hwf : GraphWF g d)
    (a : Nat) : ¬ ancestorOf g a a :=
  fun h => lt_irrefl _ (ancestor_depth hwf h)

theorem ancestor_inv_child {g : NodeGraph} {d : Nat → Nat} (hwf : GraphWF g d)
    {n c a : Nat} (hp : g.parentOf c = some n) (h : ancestorOf g a c) :
    a = n ∨ ancestorOf g a n := by
  rcases (Relation.TransGen.tail'_iff).1 h with ⟨b, hab, hbc⟩
  have hbn : b = n := by
    have hx : g.parentOf c = some b := hbc
    rw [hp] at hx
    exact (Option.some_injective _ hx).symm
  subst hbn
  rcases Relation.reflTransGen_iff_eq_or_transGen.1 hab with heq | htg
  · exact Or.inl heq.symm
  · exact Or.inr htg

theorem ancestor_extend {g : NodeGraph} {a q m : Nat}
    (h : ancestorOf g a q) (hm : g.parentOf m = some q) : ancestorOf g a m :=
  Relation.TransGen.tail h hm

theorem no_ancestor_root {g : NodeGraph} {d : Nat → Nat} (hwf : GraphWF g d)
    (a : Nat) : ¬ ancestorOf g a g.root := by
  intro h
  rcases (Relation.TransGen.tail'_iff).1 h with ⟨b, _, hbc⟩
  have hx : g.parentOf g.root = some b := hbc
  rw [hwf.root_parent] at hx
  cases hx

theorem inv_roll (g : NodeGraph) (d : Nat → Nat) (r : EffectRegistry)
    (p : Processor) (id : Nat)
    (hwf : GraphWF g d) (hgb : GlobalBound g p.workflow_state)
    (hcb : ChainBound g p.workflow_state p.current) (hcur : p.current = some id)
    (hci : ∀ n, ciOf (tick g r p).1.workflow_state n =
      (if some n = g.parentOf id then ciOf p.workflow_state n + 1
       else ciOf p.workflow_state n))
    (hqc : (tick g r p).1.current = g.parentOf id) :
    TickInv g (tick g r p).1 := by
  constructor
  · intro m
    rw [hci m]
    split
    · rename_i hm
      have hanc : ancestorOf g m id := Relation.TransGen.single hm.symm
      have hlt := hcb id hcur m hanc
      have h0 := (hgb m).1
      constructor
      · omega
      · omega
    · exact hgb m
  · intro n hn a ha
    rw [hqc] at hn
    have hne : a ≠ n := by
      intro he
      subst he
      exact ancestor_irrefl hwf a ha
    have hcond : ¬ (some a = g.parentOf id) := by
      rw [hn]
      intro hx
      exact hne (Option.some_injective _ hx)
    rw [hci a, if_neg hcond]
    exact hcb id hcur a (ancestor_extend ha hn)

theorem inv_preserved (g : NodeGraph) (d : Nat → Nat) (r : EffectRegistry)
    (p : Processor) (hwf : GraphWF g d) (hinv : TickInv g p) :
    TickInv g (tick g r p).1 := by
  obtain ⟨hgb, hcb⟩ := hinv
  cases hc : p.current with
  | none =>
      obtain ⟨hws, hcur, _, _⟩ := tick_none g r p hc
      constructor
      · intro m
        unfold ciOf
        rw [hws]
        exact hgb m
      · intro n hn
        rw [hcur] at hn
        cases hn
  | some id =>
      cases hk : g.kind id with
      | Effect ek =>
          exact inv_roll g d r p id hwf hgb hcb hc
            (tick_effect_ci g r p id ek hc hk) (tick_effect_current g r p id ek hc hk)
      | Flow fk =>
          by_cases hlt : intAsUsize ((p.workflow_state.current_states id)).child_index
              < (g.childrenOf id).length
          · obtain ⟨hws, hcur, _, _⟩ := tick_flow_descend g r p id fk hc hk hlt
            constructor
            · intro m
              unfold ciOf
              rw [hws]
              exact hgb m
            · intro n hn a ha
              rw [hcur] at hn
              have hn' : (g.childrenOf id).get
                  ⟨intAsUsize ((p.workflow_state.current_states id)).child_index, hlt⟩ = n :=
                Option.some_injective _ hn
              have hchild : n ∈ g.childrenOf id := hn' ▸ List.get_mem _ _ _
              have hp : g.parentOf n = some id := wf_parent_of_child hwf hchild
              unfold ciOf
              rw [hws]
              rcases ancestor_inv_child hwf hp ha with heq | hup
              · rw [heq]
                have h0 := (hgb id).1
                have h1 := (hgb id).2
                unfold ciOf at h0 h1
                unfold lenC at h1
                have hsmall : ((g.childrenOf id).length : Int) < (2 : Int) ^ 31 := by
                  exact_mod_cast wf_children_small hwf id
                have hlt64 : ((p.workflow_state.current_states id)).child_index
                    < (2 : Int) ^ 64 :=
                  lt_of_le_of_lt h1 (lt_trans hsmall (by norm_num))
                rw [intAsUsize_small _ h0 hlt64] at hlt
                show ciOf p.workflow_state id < (lenC g id : Int)
                unfold ciOf lenC
                omega
              · exact hcb id hc a hup
          · exact inv_roll g d r p id hwf hgb hcb hc
              (tick_flow_complete_ci g r p id fk hc hk hlt)
              (tick_flow_complete_current g r p id fk hc hk hlt)

theorem inv_init (g : NodeGraph) (d : Nat → Nat) (hwf : GraphWF g d)
    (wfid : Nat) (nm ver : String) (input : Json) (t : Nat) :
    TickInv g (initialProcessor g wfid nm ver input t) := by
  constructor
  · intro m
    have h0 : ciOf (initialProcessor g wfid nm ver input t).workflow_state m = 0 := by
      unfold ciOf initialProcessor Processor.new initialState NodeStates.new_for
        NodeState.default
      dsimp only
      split <;> rfl
    rw [h0]
    exact ⟨le_refl 0, Int.natCast_nonneg _⟩
  · intro n hn a ha
    have hroot : n = g.root := by
      unfold initialProcessor Processor.new initialState at hn
      dsimp only at hn
      exact (Option.some_injective _ hn).symm
    subst hroot
    exact absurd ha (no_ancestor_root hwf a)

theorem inv_tickN (g : NodeGraph) (d : Nat → Nat) (r : EffectRegistry)
    (hwf : GraphWF g d) (k : Nat) (p : Processor) (hinv : TickInv g p) :
    TickInv g (tickN g r k p) := by
  induction k generalizing p with
  | zero => exact hinv
  | succ k ih => exact ih _ (inv_preserved g d r p hwf hinv)

theorem tickN_succ (g : NodeGraph) (r : EffectRegistry) (k : Nat) (p : Processor) :
    tickN g r (k + 1) p = (tick g r (tickN g r k p)).1 := by
  induction k generalizing p with
  | zero => rfl
  | succ k ih =>
      show tickN g r (k + 1) (tick g r p).1 = _
      rw [ih]
      rfl

theorem tick_ci_monotone (g : NodeGraph) (r : EffectRegistry) (p : Processor)
    (n : Nat) :
    ciOf (tick g r p).1.workflow_state n = ciOf p.workflow_state n ∨
    ciOf (tick g r p).1.workflow_state n = ciOf p.workflow_state n + 1 := by
  cases hc : p.current with
  | none =>
      left
      obtain ⟨hws, _, _, _⟩ := tick_none g r p hc
      unfold ciOf
      rw [hws]
  | some id =>
      cases hk : g.kind id with
      | Effect ek =>
          rw [tick_effect_ci g r p id ek hc hk n]
          split
          · exact Or.inr rfl
          · exact Or.inl rfl
      | Flow fk =>
          by_cases hlt : intAsUsize ((p.workflow_state.current_states id)).child_index
              < (g.childrenOf id).length
          · left
            obtain ⟨hws, _, _, _⟩ := tick_flow_descend g r p id fk hc hk hlt
            unfold ciOf
            rw [hws]
          · rw [tick_flow_complete_ci g r p id fk hc hk hlt n]
            split
            · exact Or.inr rfl
            · exact Or.inl rfl

/-- C5: along a run from a fresh processor on a well-formed tree graph, each
tick changes every node's child_index by 0 or +1 (so it is monotonically
non-decreasing), and whenever the pointer rests on a Flow node whose
child_index has reached its child count (the completion test), the
child_index equals that count exactly. -/
theorem c5_child_index_monotone_exact (g : NodeGraph) (r : EffectRegistry)
    (d : Nat → Nat) (wfid : Nat) (nm ver : String) (input : Json) (t : Nat)
    (hwf : GraphWF g d) (k : Nat) :
    (∀ n, ciOf (tickN g r (k + 1) (initialProcessor g wfid nm ver input t)).workflow_state n
        = ciOf (tickN g r k (initialProcessor g wfid nm ver input t)).workflow_state n ∨
      ciOf (tickN g r (k + 1) (initialProcessor g wfid nm ver input t)).workflow_state n
        = ciOf (tickN g r k (initialProcessor g wfid nm ver input t)).workflow_state n + 1) ∧
    (∀ n (fk : FlowKind),
      (tickN g r k (initialProcessor g wfid nm ver input t)).current = some n →
      g.kind n = NodeKind.Flow fk →
      ¬ intAsUsize (((tickN g r k (initialProcessor g wfid nm ver input t)).workflow_state.current_states n)).child_index
          < (g.childrenOf n).length →
      ciOf (tickN g r k (initialProcessor g wfid nm ver input t)).workflow_state n
        = (lenC g n : Int)) := by
  constructor
  · intro n
    rw [tickN_succ]
    exact tick_ci_monotone g r (tickN g r k (initialProcessor g wfid nm ver input t)) n
  · intro n fk hcur hkind hge
    obtain ⟨hgb, _⟩ := inv_tickN g d r hwf k (initialProcessor g wfid nm ver input t)
      (inv_init g d hwf wfid nm ver input t)
    have h0 := (hgb n).1
    have h1 := (hgb n).2
    unfold ciOf at h0 h1 ⊢
    unfold lenC at h1 ⊢
    have hsmall : ((g.childrenOf n).length : Int) < (2 : Int) ^ 31 := by
      exact_mod_cast wf_children_small hwf n
    have hlt64 : (((tickN g r k (initialProcessor g wfid nm ver input t)).workflow_state.current_states n)).child_index
        < (2 : Int) ^ 64 :=
      lt_of_le_of_lt h1 (lt_trans hsmall (by norm_num))
    rw [intAsUsize_small _ h0 hlt64] at hge
    omega

/-- Witness for C5 at the Root/Run graph with identity depth measure, after
two ticks (the Root is then at its completion test). -/
theorem c5_child_index_monotone_exact_witness :
    GraphWF graph1 (fun i => i) ∧
    ((∀ n, ciOf (tickN graph1 registry1 3 (initialProcessor graph1 0 "wf" "v1" Json.null 0)).workflow_state n
        = ciOf (tickN graph1 registry1 2 (initialProcessor graph1 0 "wf" "v1" Json.null 0)).workflow_state n ∨
      ciOf (tickN graph1 registry1 3 (initialProcessor graph1 0 "wf" "v1" Json.null 0)).workflow_state n
        = ciOf (tickN graph1 registry1 2 (initialProcessor graph1 0 "wf" "v1" Json.null 0)).workflow_state n + 1) ∧
    (∀ n (fk : FlowKind),
      (tickN graph1 registry1 2 (initialProcessor graph1 0 "wf" "v1" Json.null 0)).current = some n →
      graph1.kind n = NodeKind.Flow fk →
      ¬ intAsUsize (((tickN graph1 registry1 2 (initialProcessor graph1 0 "wf" "v1" Json.null 0)).workflow_state.current_states n)).child_index
          < (graph1.childrenOf n).length →
      ciOf (tickN graph1 registry1 2 (initialProcessor graph1 0 "wf" "v1" Json.null 0)).workflow_state n
        = (lenC graph1 n : Int))) :=
  have hwf : GraphWF graph1 (fun i => i) :=
    ⟨by decide, by decide, by decide, by decide⟩
  ⟨hwf, c5_child_index_monotone_exact graph1 registry1 (fun i => i) 0 "wf" "v1"
    Json.null 0 hwf 2⟩
